import Mathlib

/-!
Shallow embedding of `src/glue_metadata_crawler/glue_metadata_crawler.py`.

Python values that flow through the script are modelled by `PyVal`,
Python dictionaries by association lists (`List (String × _)`) with the
insertion semantics of `dict` (overwrite in place, append when absent),
exceptions by `Except String _` or by an explicit `raised : Option String`
field of a trace structure, and the script's side effects (snapshot file
writes, the override-file read, `update_table` calls) by explicit event
fields of the trace structures.
-/

set_option autoImplicit false

namespace GlueMetadataCrawler

/-- A Python value, as far as the script observes one: `None`, strings,
`datetime.datetime` objects (carrying the string their `isoformat()`
returns), lists, dictionaries, and any other non-JSON-primitive object
(carrying the name of its Python type). -/
inductive PyVal where
  | vnull : PyVal
  | vstr (s : String) : PyVal
  | vdatetime (iso : String) : PyVal
  | vlist (items : List PyVal) : PyVal
  | vobj (fields : List (String × PyVal)) : PyVal
  | vother (typeName : String) : PyVal

/-- A JSON value as produced by `json.dump`: only primitives, arrays and
objects remain after serialization. -/
inductive JsonVal where
  | jnull : JsonVal
  | jstr (s : String) : JsonVal
  | jarr (items : List JsonVal) : JsonVal
  | jobj (fields : List (String × JsonVal)) : JsonVal

/-- The name of the Python type of a value, as `type(obj)` would render it. -/
def py_type_name : PyVal → String
  | .vnull => "NoneType"
  | .vstr _ => "str"
  | .vdatetime _ => "datetime.datetime"
  | .vlist _ => "list"
  | .vobj _ => "dict"
  | .vother t => t

/-- The message of the `TypeError` that `serialize_datetime` raises on a
value that is not a `datetime` (the Python source formats `type(obj)` into
the message, so the message names the offending value's type). -/
def not_serializable_msg (typeName : String) : String :=
  "Object of type " ++ typeName ++ " is not JSON serializable"

/-- `serialize_datetime` (source lines 49-65): returns `obj.isoformat()`
when `obj` is a `datetime`, otherwise raises a `TypeError` whose message
names the type of `obj`. -/
def serialize_datetime (obj : PyVal) : Except String String :=
  match obj with
  | .vdatetime iso => .ok iso
  | v => .error (not_serializable_msg (py_type_name v))

mutual

/-- `json.dump`'s serialization of one value, with `serialize_datetime`
installed as the `default` fallback for non-primitive values (source line
158: `json.dump(data, f, indent=4, default=serialize_datetime)`).
Primitives, lists and dicts are serialized natively; `datetime` and every
other non-primitive object go through `serialize_datetime`. -/
def dumpVal : PyVal → Except String JsonVal
  | .vnull => .ok .jnull
  | .vstr s => .ok (.jstr s)
  | .vdatetime iso =>
      match serialize_datetime (.vdatetime iso) with
      | .ok s => .ok (.jstr s)
      | .error e => .error e
  | .vother t =>
      match serialize_datetime (.vother t) with
      | .ok s => .ok (.jstr s)
      | .error e => .error e
  | .vlist items =>
      match dumpList items with
      | .ok js => .ok (.jarr js)
      | .error e => .error e
  | .vobj fields =>
      match dumpFields fields with
      | .ok js => .ok (.jobj js)
      | .error e => .error e

/-- Serialization of the items of a Python list, first failure wins. -/
def dumpList : List PyVal → Except String (List JsonVal)
  | [] => .ok []
  | v :: rest =>
      match dumpVal v with
      | .error e => .error e
      | .ok j =>
          match dumpList rest with
          | .error e => .error e
          | .ok js => .ok (j :: js)

/-- Serialization of the entries of a Python dict, first failure wins. -/
def dumpFields : List (String × PyVal) → Except String (List (String × JsonVal))
  | [] => .ok []
  | (k, v) :: rest =>
      match dumpVal v with
      | .error e => .error e
      | .ok j =>
          match dumpFields rest with
          | .error e => .error e
          | .ok js => .ok ((k, j) :: js)

end

mutual

/-- The Python type names of all non-serializable (`vother`) values nested
anywhere inside a value, in the order `json.dump`'s traversal meets them. -/
def otherTypes : PyVal → List String
  | .vnull => []
  | .vstr _ => []
  | .vdatetime _ => []
  | .vother t => [t]
  | .vlist items => otherTypesList items
  | .vobj fields => otherTypesFields fields

/-- `otherTypes` over the items of a list. -/
def otherTypesList : List PyVal → List String
  | [] => []
  | v :: rest => otherTypes v ++ otherTypesList rest

/-- `otherTypes` over the entries of a dict. -/
def otherTypesFields : List (String × PyVal) → List String
  | [] => []
  | (_, v) :: rest => otherTypes v ++ otherTypesFields rest

end

/-- One column dict of `metadata['StorageDescriptor']['Columns']`.  The
script reads `col['Name']` / `column.get('Name')` and
`col['Comment']` / `column.get('Comment')` and writes `col['Comment']`;
`Comment = none` models an absent `Comment` key.  Other column attributes
are never read nor written by the script and are omitted. -/
structure Column where
  Name : String
  Comment : Option String

/-- The `StorageDescriptor` dict: the script only reads its `Columns`
sequence. -/
structure StorageDescriptor where
  Columns : List Column

/-- The table metadata dict `response['Table']`.  `fields` holds the
top-level entries of the dict as Python values — the script only observes
whether a value `is None` (line 106) — and `StorageDescriptor` models the
`'StorageDescriptor'` entry, `none` when the key is absent. -/
structure TableMetadata where
  fields : List (String × PyVal)
  StorageDescriptor : Option StorageDescriptor

/-- Is a Python value `None`? -/
def PyVal.isNull : PyVal → Bool
  | .vnull => true
  | _ => false

/-- A character Python's `str.strip()` removes (the common ASCII
whitespace). -/
def is_py_space (c : Char) : Bool :=
  c == ' ' || c == '\t' || c == '\n' || c == '\r'

/-- Python's `s.strip()`: the string without leading and trailing
whitespace. -/
def py_strip (s : String) : String :=
  String.mk (((s.data.dropWhile is_py_space).reverse.dropWhile is_py_space).reverse)

/-- The script's undocumented-column test (lines 143 and 181-182):
`comment is None or comment.strip() == ""`. -/
def undocumented (c : Column) : Bool :=
  match c.Comment with
  | none => true
  | some s => py_strip s == ""

/-- Lookup in a Python dict modelled as an association list (first match;
the `dict_insert` operation keeps keys unique). -/
def str_lookup {α : Type} : List (String × α) → String → Option α
  | [], _ => none
  | p :: rest, k => if p.1 = k then some p.2 else str_lookup rest k

/-- `d[k] = v` on a Python dict: overwrite in place when the key exists,
append otherwise. -/
def dict_insert {α : Type} : List (String × α) → String → α → List (String × α)
  | [], k, v => [(k, v)]
  | p :: rest, k, v => if p.1 = k then (k, v) :: rest else p :: dict_insert rest k v

/-- `missing_values` of `get_table_metadata` (line 106): the top-level
keys of the metadata dict whose value is `None`. -/
def top_null_keys (tm : TableMetadata) : List String :=
  (tm.fields.filter (fun p => p.2.isNull)).map Prod.fst

/-- `metadata.get('StorageDescriptor', {}).get('Columns', [])`
(line 141). -/
def write_cols (tm : TableMetadata) : List Column :=
  match tm.StorageDescriptor with
  | some sd => sd.Columns
  | none => []

/-- The value stored in `default_values[name]` (lines 143-147): `""` for
an undocumented column, the comment itself otherwise. -/
def dv_value (c : Column) : String :=
  if undocumented c then "" else c.Comment.getD ""

/-- The `default_values` dict after the first loop of
`write_metadata_and_missing_values` (lines 141-147). -/
def build_default_values (cols : List Column) : List (String × String) :=
  cols.foldl (fun d c => dict_insert d c.Name (dv_value c)) []

/-- The `missing_columns` dict after the first loop (lines 149-150): an
entry tagged `"default comment missing"` for every column that is
undocumented and whose name is in `missing_values`. -/
def build_missing_tagged (cols : List Column) (missing_values : List String) :
    List (String × String) :=
  cols.foldl
    (fun d c =>
      if c.Name ∈ missing_values && undocumented c then
        dict_insert d c.Name "default comment missing"
      else d)
    []

/-- The second loop over `default_values` (lines 153-155): every
`default_values` key not yet in `missing_columns` whose value is `""` is
added with the empty tag. -/
def missing_second_pass (dv : List (String × String)) (mc : List (String × String)) :
    List (String × String) :=
  dv.foldl
    (fun m p =>
      if (str_lookup m p.1).isNone && p.2 == "" then dict_insert m p.1 "" else m)
    mc

/-- The full `missing_columns` report of
`write_metadata_and_missing_values` (lines 141-155). -/
def build_missing_report (cols : List Column) (missing_values : List String) :
    List (String × String) :=
  missing_second_pass (build_default_values cols) (build_missing_tagged cols missing_values)

/-- A string-valued Python dict as a `PyVal`. -/
def str_dict_pyval (d : List (String × String)) : PyVal :=
  .vobj (d.map (fun p => (p.1, .vstr p.2)))

/-- The `data` dict written by `write_metadata_and_missing_values`
(lines 156-159): exactly the two keys `default_values` and
`missing_columns`. -/
def snapshot_data (tm : TableMetadata) (missing_values : List String) : PyVal :=
  .vobj
    [("default_values", str_dict_pyval (build_default_values (write_cols tm))),
     ("missing_columns", str_dict_pyval (build_missing_report (write_cols tm) missing_values))]

/-- The body of the `try` block of `write_metadata_and_missing_values`:
build the two dicts, open the output file (`fsOk = false` models an
`open`/write failure) and serialize `data` with
`default=serialize_datetime`.  An `Except.error` is a Python exception
escaping the block. -/
def write_body (tm : TableMetadata) (missing_values : List String) (fsOk : Bool) :
    Except String JsonVal :=
  if fsOk then dumpVal (snapshot_data tm missing_values)
  else .error "io failure"

/-- The outcome of `write_metadata_and_missing_values`: `raised` would be
an exception propagated to the caller, `written` the serialized file
content on success, `warned` the message printed by the `except` branch. -/
structure WriteResult where
  raised : Option String
  written : Option JsonVal
  warned : Option String

/-- `write_metadata_and_missing_values` (lines 121-162): runs the body
and catches every exception, printing a warning and returning normally. -/
def write_metadata_and_missing_values (tm : TableMetadata) (missing_values : List String)
    (fsOk : Bool) : WriteResult :=
  match write_body tm missing_values fsOk with
  | .ok j => ⟨none, some j, none⟩
  | .error e => ⟨none, none, some ("Error during metadata writing: " ++ e)⟩

/-- The outcome of the `glue_client.get_table` call inside
`get_table_metadata`: success with the `response['Table']` document,
`EntityNotFoundException`, or any other exception. -/
inductive GetTableResult where
  | ok (table : TableMetadata) : GetTableResult
  | entityNotFound : GetTableResult
  | otherError (msg : String) : GetTableResult

/-- The observable behaviour of `get_table_metadata`: its return value
(`None` on both error kinds) and the list of
`write_metadata_and_missing_values` calls it made, each recorded as the
`(metadata, missing_values)` arguments. -/
structure FetchTrace where
  ret : Option TableMetadata
  writeCalls : List (TableMetadata × List String)

/-- `get_table_metadata` (source lines 87-118): on success, computes the
top-level-null key list, triggers the "before" snapshot write and returns
the metadata; on `EntityNotFoundException` or any other exception, prints
and returns `None` without any snapshot write. -/
def get_table_metadata (r : GetTableResult) : FetchTrace :=
  match r with
  | .ok tm => ⟨some tm, [(tm, top_null_keys tm)]⟩
  | .entityNotFound => ⟨none, []⟩
  | .otherError _ => ⟨none, []⟩

/-- The value `add_update_missing_values` returns when it returns: the
empty dict `{}` (line 187) or the mutated metadata document (line 214). -/
inductive MergeReturn where
  | emptyDict : MergeReturn
  | updated (tm : TableMetadata) : MergeReturn

/-- The observable behaviour of `add_update_missing_values`: a possibly
raised exception, the returned value when none was raised, whether
`open("new_values.json")` was attempted, and the `TableInput` dicts
passed to `glue_client.update_table`. -/
structure MergeTrace where
  raised : Option String
  ret : Option MergeReturn
  openedOverrides : Bool
  updateCalls : List (List (String × PyVal))

/-- The `missing_columns` dict of `add_update_missing_values`
(lines 179-183): every undocumented column's name, mapped to `""`. -/
def merge_missing_columns (cols : List Column) : List (String × String) :=
  cols.foldl (fun d c => if undocumented c then dict_insert d c.Name "" else d) []

/-- The update loop of `add_update_missing_values` (lines 193-200): for
each name in `missing_columns`, every column of that name gets its
comment set to the override value when `new_values` has one, to `""`
otherwise (the dict value stored for the name is always `""`). -/
def merge_loop (cols : List Column) (names : List String)
    (new_values : List (String × String)) : List Column :=
  names.foldl
    (fun cs column =>
      cs.map (fun col =>
        if col.Name = column then
          Column.mk col.Name (some ((str_lookup new_values column).getD ""))
        else col))
    cols

/-- A column dict rendered back as a Python value, for the `TableInput`
payload. -/
def columns_pyval (cols : List Column) : PyVal :=
  .vlist
    (cols.map (fun c =>
      .vobj
        (("Name", PyVal.vstr c.Name) ::
          (match c.Comment with
           | some s => [("Comment", PyVal.vstr s)]
           | none => []))))

/-- The `table_input` dict of `add_update_missing_values` (lines
203-208): only the table name and, under `StorageDescriptor`, only the
column sequence. -/
def table_input_val (table_name : String) (cols : List Column) :
    List (String × PyVal) :=
  [("Name", .vstr table_name),
   ("StorageDescriptor", .vobj [("Columns", columns_pyval cols)])]

/-- `add_update_missing_values` (source lines 165-215).  `new_values_file`
models the attempt to open and parse `new_values.json`: `Except.error` is
the exception the `open`/`json.load` would raise.  Subscripting `None`
raises a `TypeError` before anything else; a dict without
`StorageDescriptor` raises a `KeyError`.  When no column is undocumented
the function prints and returns `{}` without touching the override file
or the catalog.  Otherwise the override file is read, every undocumented
column's comment is rewritten, and one `update_table` call is made with
the minimal `table_input`. -/
def add_update_missing_values (table_name : String)
    (new_values_file : Except String (List (String × String)))
    (metadata : Option TableMetadata) : MergeTrace :=
  match metadata with
  | none => ⟨some "TypeError: NoneType object is not subscriptable", none, false, []⟩
  | some tm =>
    match tm.StorageDescriptor with
    | none => ⟨some "KeyError: StorageDescriptor", none, false, []⟩
    | some sd =>
      let missing := merge_missing_columns sd.Columns
      if missing.isEmpty then ⟨none, some .emptyDict, false, []⟩
      else
        match new_values_file with
        | .error e => ⟨some e, none, true, []⟩
        | .ok new_values =>
          let cols2 := merge_loop sd.Columns (missing.map Prod.fst) new_values
          let tm2 := TableMetadata.mk tm.fields (some (StorageDescriptor.mk cols2))
          ⟨none, some (.updated tm2), true, [table_input_val table_name cols2]⟩

/-- The metadata document as it stands after a merge call: the returned
updated document when the call returned one, the (unmutated) input
document otherwise. -/
def merge_result_doc (tm : TableMetadata) (r : MergeTrace) : TableMetadata :=
  match r.ret with
  | some (MergeReturn.updated tm2) => tm2
  | _ => tm

/-- The per-column effect of the update loop: an undocumented column gets
the override value when `new_values` has one and `""` otherwise; a
documented column is untouched (lines 193-200, named for proofs). -/
def merge_one (new_values : List (String × String)) (c : Column) : Column :=
  if undocumented c then
    Column.mk c.Name (some ((str_lookup new_values c.Name).getD ""))
  else c

/-- A sample metadata document: a documented `id` column, an undocumented
`ts` column, and top-level fields among which `Description` and `ts` are
null. -/
def sample_tm : TableMetadata :=
  TableMetadata.mk
    [("Name", PyVal.vstr "orders"), ("Description", PyVal.vnull), ("ts", PyVal.vnull)]
    (some (StorageDescriptor.mk
      [Column.mk "id" (some "primary key"), Column.mk "ts" (some "")]))

/-- A sample metadata document in which every column is documented. -/
def documented_tm : TableMetadata :=
  TableMetadata.mk []
    (some (StorageDescriptor.mk [Column.mk "id" (some "primary key")]))

/-- A sample metadata document lacking the `StorageDescriptor` key. -/
def no_sd_tm : TableMetadata :=
  TableMetadata.mk [("Name", PyVal.vstr "orders")] none

section DictLemmas

variable {α : Type}

theorem str_lookup_append_of_some (d1 d2 : List (String × α)) (k : String) (v : α)
    (h : str_lookup d1 k = some v) : str_lookup (d1 ++ d2) k = some v := by
  induction d1 with
  | nil => simp [str_lookup] at h
  | cons p rest ih =>
    simp only [str_lookup, List.cons_append] at h ⊢
    by_cases hk : p.1 = k
    · simpa [hk] using h
    · simp only [hk, if_false] at h ⊢
      exact ih h

theorem str_lookup_append_of_none (d1 d2 : List (String × α)) (k : String)
    (h : str_lookup d1 k = none) : str_lookup (d1 ++ d2) k = str_lookup d2 k := by
  induction d1 with
  | nil => simp [str_lookup]
  | cons p rest ih =>
    simp only [str_lookup, List.cons_append] at h ⊢
    by_cases hk : p.1 = k
    · simp [hk] at h
    · simp only [hk, if_false] at h ⊢
      exact ih h

theorem str_lookup_eq_none_iff (d : List (String × α)) (k : String) :
    str_lookup d k = none ↔ ∀ p ∈ d, p.1 ≠ k := by
  induction d with
  | nil => simp [str_lookup]
  | cons p rest ih =>
    simp only [str_lookup, List.mem_cons]
    by_cases hk : p.1 = k
    · simp [hk]
    · simp [hk, ih]

theorem dict_insert_of_lookup_none (d : List (String × α)) (k : String) (v : α)
    (h : str_lookup d k = none) : dict_insert d k v = d ++ [(k, v)] := by
  induction d with
  | nil => simp [dict_insert]
  | cons p rest ih =>
    simp only [str_lookup] at h
    by_cases hk : p.1 = k
    · simp [hk] at h
    · simp only [dict_insert, hk, if_false, List.cons_append] at h ⊢
      rw [ih h]

theorem dict_insert_ne_nil (d : List (String × α)) (k : String) (v : α) :
    dict_insert d k v ≠ [] := by
  cases d with
  | nil => simp [dict_insert]
  | cons p rest =>
    simp only [dict_insert]
    by_cases hk : p.1 = k <;> simp [hk]

theorem str_lookup_map_value (d : List (String × α)) {β : Type} (F : α → β) (k : String) :
    str_lookup (d.map (fun p => (p.1, F p.2))) k = (str_lookup d k).map F := by
  induction d with
  | nil => simp [str_lookup]
  | cons p rest ih =>
    by_cases hk : p.1 = k <;> simp [str_lookup, hk, ih]

end DictLemmas

section FoldLemmas

variable {α β : Type}

theorem foldl_if_eq_foldl_filter (g : α → Bool) (f : β → α → β) :
    ∀ (l : List α) (acc : β),
      l.foldl (fun d a => if g a then f d a else d) acc = (l.filter g).foldl f acc := by
  intro l
  induction l with
  | nil => intro acc; rfl
  | cons a rest ih =>
    intro acc
    by_cases hg : g a = true
    · simp [List.foldl_cons, List.filter_cons, hg, ih]
    · simp only [Bool.not_eq_true] at hg
      simp [List.foldl_cons, List.filter_cons, hg, ih]

theorem foldl_dict_insert_eq (key : α → String) (val : α → String) :
    ∀ (l : List α) (acc : List (String × String)),
      (l.map key).Nodup →
      (∀ a ∈ l, str_lookup acc (key a) = none) →
      l.foldl (fun d a => dict_insert d (key a) (val a)) acc
        = acc ++ l.map (fun a => (key a, val a)) := by
  intro l
  induction l with
  | nil => intro acc _ _; simp
  | cons a rest ih =>
    intro acc hnd hfresh
    simp only [List.map_cons, List.nodup_cons] at hnd
    have hacc : str_lookup acc (key a) = none := hfresh a (List.mem_cons_self a rest)
    have hstep : dict_insert acc (key a) (val a) = acc ++ [(key a, val a)] :=
      dict_insert_of_lookup_none acc (key a) (val a) hacc
    have hfresh2 : ∀ b ∈ rest, str_lookup (acc ++ [(key a, val a)]) (key b) = none := by
      intro b hb
      have hb1 : str_lookup acc (key b) = none := hfresh b (List.mem_cons_of_mem a hb)
      rw [str_lookup_append_of_none acc _ _ hb1]
      have hne : key a ≠ key b := by
        intro hEq
        exact hnd.1 (hEq ▸ List.mem_map_of_mem key hb)
      simp [str_lookup, hne]
    calc (a :: rest).foldl (fun d a => dict_insert d (key a) (val a)) acc
        = rest.foldl (fun d a => dict_insert d (key a) (val a)) (acc ++ [(key a, val a)]) := by
          simp [List.foldl_cons, hstep]
      _ = (acc ++ [(key a, val a)]) ++ rest.map (fun a => (key a, val a)) :=
          ih _ hnd.2 hfresh2
      _ = acc ++ (a :: rest).map (fun a => (key a, val a)) := by
          simp

theorem foldl_dict_insert_ne_nil (key : α → String) (val : α → String) :
    ∀ (l : List α) (acc : List (String × String)), acc ≠ [] →
      l.foldl (fun d a => dict_insert d (key a) (val a)) acc ≠ [] := by
  intro l
  induction l with
  | nil => intro acc h; simpa using h
  | cons a rest ih =>
    intro acc _
    simp only [List.foldl_cons]
    exact ih _ (dict_insert_ne_nil acc (key a) (val a))

theorem foldl_dict_insert_eq_nil_iff (key : α → String) (val : α → String) (l : List α) :
    l.foldl (fun d a => dict_insert d (key a) (val a)) [] = [] ↔ l = [] := by
  cases l with
  | nil => simp
  | cons a rest =>
    simp only [List.foldl_cons]
    constructor
    · intro h
      exact absurd h (foldl_dict_insert_ne_nil key val rest _ (dict_insert_ne_nil [] (key a) (val a)))
    · intro h; exact absurd h (by simp)

theorem str_lookup_map_eq_some_iff (key : α → String) (val : α → String)
    (l : List α) (hnd : (l.map key).Nodup) (k : String) (v : String) :
    str_lookup (l.map (fun a => (key a, val a))) k = some v ↔
      ∃ a ∈ l, key a = k ∧ val a = v := by
  induction l with
  | nil => simp [str_lookup]
  | cons a rest ih =>
    simp only [List.map_cons, List.nodup_cons] at hnd
    simp only [List.map_cons, str_lookup, List.mem_cons]
    by_cases hk : key a = k
    · simp only [hk, if_true]
      constructor
      · intro h
        exact ⟨a, Or.inl rfl, hk, Option.some_injective _ h⟩
      · rintro ⟨b, hb | hb, hbk, hbv⟩
        · subst hb; exact congrArg some hbv
        · exact absurd (hk ▸ hbk ▸ List.mem_map_of_mem key hb) hnd.1
    · simp only [hk, if_false, ih hnd.2]
      constructor
      · rintro ⟨b, hb, hbk, hbv⟩
        exact ⟨b, Or.inr hb, hbk, hbv⟩
      · rintro ⟨b, hb | hb, hbk, hbv⟩
        · subst hb; exact absurd hbk hk
        · exact ⟨b, hb, hbk, hbv⟩

theorem str_lookup_map_eq_none_iff (key : α → String) (val : α → String)
    (l : List α) (k : String) :
    str_lookup (l.map (fun a => (key a, val a))) k = none ↔ ∀ a ∈ l, key a ≠ k := by
  rw [str_lookup_eq_none_iff]
  constructor
  · intro h a ha
    exact h (key a, val a) (List.mem_map_of_mem _ ha)
  · rintro h p hp
    obtain ⟨a, ha, rfl⟩ := List.mem_map.mp hp
    exact h a ha

end FoldLemmas

section BuildLemmas

theorem missing_second_pass_eq :
    ∀ (dv : List (String × String)) (mc : List (String × String)),
      (dv.map Prod.fst).Nodup →
      missing_second_pass dv mc
        = mc ++ ((dv.filter (fun p => (str_lookup mc p.1).isNone && p.2 == "")).map
            (fun p => (p.1, ""))) := by
  intro dv
  induction dv with
  | nil => intro mc _; simp [missing_second_pass]
  | cons p rest ih =>
    intro mc hnd
    simp only [List.map_cons, List.nodup_cons] at hnd
    have hrest : ∀ q ∈ rest, q.1 ≠ p.1 := by
      intro q hq hEq
      exact hnd.1 (hEq ▸ List.mem_map_of_mem Prod.fst hq)
    simp only [missing_second_pass, List.foldl_cons] at ih ⊢
    by_cases hg : ((str_lookup mc p.1).isNone && p.2 == "") = true
    · have hmcp : str_lookup mc p.1 = none := by
        cases hmc : str_lookup mc p.1 with
        | none => rfl
        | some v => rw [hmc] at hg; simp at hg
      have hstep : dict_insert mc p.1 "" = mc ++ [(p.1, "")] :=
        dict_insert_of_lookup_none mc p.1 "" hmcp
      have hsame : ∀ q ∈ rest,
          ((str_lookup (mc ++ [(p.1, "")]) q.1).isNone && q.2 == "")
            = ((str_lookup mc q.1).isNone && q.2 == "") := by
        intro q hq
        cases hv : str_lookup mc q.1 with
        | some v => rw [str_lookup_append_of_some mc _ _ _ hv]
        | none =>
          rw [str_lookup_append_of_none mc _ _ hv]
          simp [str_lookup, (hrest q hq).symm, hv]
      rw [if_pos hg, hstep, ih (mc ++ [(p.1, "")]) hnd.2,
        List.filter_cons, if_pos hg, List.filter_congr hsame]
      simp
    · rw [if_neg hg, ih mc hnd.2, List.filter_cons, if_neg hg]

theorem build_default_values_eq (cols : List Column)
    (hnd : (cols.map Column.Name).Nodup) :
    build_default_values cols = cols.map (fun c => (c.Name, dv_value c)) := by
  unfold build_default_values
  rw [foldl_dict_insert_eq Column.Name dv_value cols [] hnd (by intro a _; rfl)]
  simp

theorem build_missing_tagged_eq (cols : List Column) (mv : List String)
    (hnd : (cols.map Column.Name).Nodup) :
    build_missing_tagged cols mv
      = (cols.filter (fun c => c.Name ∈ mv && undocumented c)).map
          (fun c => (c.Name, "default comment missing")) := by
  unfold build_missing_tagged
  rw [foldl_if_eq_foldl_filter]
  have hnd2 : ((cols.filter (fun c => c.Name ∈ mv && undocumented c)).map Column.Name).Nodup :=
    List.Nodup.sublist (List.Sublist.map Column.Name (List.filter_sublist cols)) hnd
  rw [foldl_dict_insert_eq Column.Name (fun _ => "default comment missing") _ [] hnd2
    (by intro a _; rfl)]
  simp

theorem merge_missing_columns_eq (cols : List Column)
    (hnd : (cols.map Column.Name).Nodup) :
    merge_missing_columns cols
      = (cols.filter undocumented).map (fun c => (c.Name, "")) := by
  unfold merge_missing_columns
  rw [foldl_if_eq_foldl_filter]
  have hnd2 : ((cols.filter undocumented).map Column.Name).Nodup :=
    List.Nodup.sublist (List.Sublist.map Column.Name (List.filter_sublist cols)) hnd
  rw [foldl_dict_insert_eq Column.Name (fun _ => "") _ [] hnd2 (by intro a _; rfl)]
  simp

theorem merge_missing_columns_eq_nil_iff (cols : List Column) :
    merge_missing_columns cols = [] ↔ ∀ c ∈ cols, undocumented c = false := by
  unfold merge_missing_columns
  rw [foldl_if_eq_foldl_filter,
    foldl_dict_insert_eq_nil_iff Column.Name (fun _ => ""),
    List.filter_eq_nil_iff]
  simp

theorem py_strip_empty : py_strip "" = "" := by decide

theorem dv_value_eq_empty_iff (c : Column) :
    dv_value c = "" ↔ undocumented c = true := by
  by_cases hu : undocumented c = true
  · simp [dv_value, hu]
  · unfold dv_value
    rw [if_neg hu]
    constructor
    · intro hv
      exfalso
      apply hu
      cases hc : c.Comment with
      | none => simp [undocumented, hc]
      | some s =>
        rw [hc, Option.getD_some] at hv
        subst hv
        simp [undocumented, hc, py_strip_empty]
    · intro h
      exact absurd h hu

section MergeLemmas

theorem merge_loop_eq (new_values : List (String × String)) :
    ∀ (names : List String) (cols : List Column),
      merge_loop cols names new_values
        = cols.map (fun c =>
            if c.Name ∈ names then
              Column.mk c.Name (some ((str_lookup new_values c.Name).getD ""))
            else c) := by
  intro names
  induction names with
  | nil =>
    intro cols
    simp [merge_loop]
  | cons m rest ih =>
    intro cols
    have hstep : merge_loop cols (m :: rest) new_values
        = merge_loop (cols.map (fun col =>
            if col.Name = m then
              Column.mk col.Name (some ((str_lookup new_values m).getD ""))
            else col)) rest new_values := by
      simp [merge_loop, List.foldl_cons]
    rw [hstep, ih, List.map_map]
    apply List.map_congr_left
    intro c _
    simp only [Function.comp_apply]
    by_cases hm : c.Name = m
    · by_cases hr : c.Name ∈ rest
      · simp [hm, hr, List.mem_cons]
      · simp [hm, hr, List.mem_cons]
    · by_cases hr : c.Name ∈ rest
      · simp [hm, hr, List.mem_cons]
      · simp [hm, hr, List.mem_cons]

theorem name_injective_of_nodup {cols : List Column}
    (hnd : (cols.map Column.Name).Nodup) :
    ∀ c1 ∈ cols, ∀ c2 ∈ cols, c1.Name = c2.Name → c1 = c2 := by
  intro c1 h1 c2 h2 hEq
  exact List.inj_on_of_nodup_map hnd h1 h2 hEq

theorem mem_missing_names_iff {cols : List Column}
    (hnd : (cols.map Column.Name).Nodup) (c : Column) (hc : c ∈ cols) :
    c.Name ∈ (merge_missing_columns cols).map Prod.fst ↔ undocumented c = true := by
  rw [merge_missing_columns_eq cols hnd, List.map_map]
  constructor
  · intro h
    obtain ⟨c2, hc2, hname⟩ := List.mem_map.mp h
    have hc2cols : c2 ∈ cols := List.mem_of_mem_filter hc2
    have : c2 = c := name_injective_of_nodup hnd c2 hc2cols c hc hname
    subst this
    exact List.of_mem_filter hc2
  · intro h
    have : c ∈ cols.filter undocumented := List.mem_filter.mpr ⟨hc, h⟩
    exact List.mem_map.mpr ⟨c, this, rfl⟩

theorem merged_columns_eq (new_values : List (String × String)) (cols : List Column)
    (hnd : (cols.map Column.Name).Nodup) :
    merge_loop cols ((merge_missing_columns cols).map Prod.fst) new_values
      = cols.map (fun c =>
          if undocumented c then
            Column.mk c.Name (some ((str_lookup new_values c.Name).getD ""))
          else c) := by
  rw [merge_loop_eq]
  apply List.map_congr_left
  intro c hc
  by_cases hu : undocumented c = true
  · rw [if_pos ((mem_missing_names_iff hnd c hc).mpr hu), if_pos hu]
  · rw [if_neg (fun h => hu ((mem_missing_names_iff hnd c hc).mp h)), if_neg hu]

section ReportLemmas

theorem default_values_keys_eq (cols : List Column)
    (hnd : (cols.map Column.Name).Nodup) :
    (build_default_values cols).map Prod.fst = cols.map Column.Name := by
  rw [build_default_values_eq cols hnd, List.map_map]
  exact List.map_congr_left (fun c _ => rfl)

theorem build_missing_report_lookup_iff (cols : List Column) (mv : List String)
    (hnd : (cols.map Column.Name).Nodup) (n : String) (tag : String) :
    str_lookup (build_missing_report cols mv) n = some tag ↔
      ∃ c ∈ cols, c.Name = n ∧ undocumented c = true ∧
        tag = (if n ∈ mv then "default comment missing" else "") := by
  have hnd1 : ((cols.filter (fun c => c.Name ∈ mv && undocumented c)).map Column.Name).Nodup :=
    List.Nodup.sublist (List.Sublist.map Column.Name (List.filter_sublist cols)) hnd
  have hmc1 : build_missing_tagged cols mv
      = (cols.filter (fun c => c.Name ∈ mv && undocumented c)).map
          (fun c => (c.Name, "default comment missing")) :=
    build_missing_tagged_eq cols mv hnd
  have hreport : build_missing_report cols mv
      = build_missing_tagged cols mv
          ++ ((cols.filter (fun c =>
                (str_lookup (build_missing_tagged cols mv) c.Name).isNone
                  && dv_value c == "")).map (fun c => (c.Name, ""))) := by
    unfold build_missing_report
    rw [missing_second_pass_eq _ _ (by
      rw [default_values_keys_eq cols hnd]
      exact hnd)]
    rw [build_default_values_eq cols hnd, List.filter_map, List.map_map]
    rfl
  have hnd2 : ((cols.filter (fun c =>
      (str_lookup (build_missing_tagged cols mv) c.Name).isNone
        && dv_value c == "")).map Column.Name).Nodup :=
    List.Nodup.sublist (List.Sublist.map Column.Name (List.filter_sublist cols)) hnd
  constructor
  · intro h
    rw [hreport] at h
    cases hmc : str_lookup (build_missing_tagged cols mv) n with
    | some t =>
      have hsome := str_lookup_append_of_some _
        ((cols.filter (fun c =>
          (str_lookup (build_missing_tagged cols mv) c.Name).isNone
            && dv_value c == "")).map (fun c => (c.Name, ""))) n t hmc
      rw [hsome] at h
      have htag : tag = t := (Option.some_injective _ h).symm
      rw [hmc1] at hmc
      obtain ⟨c, hcf, hcn, hcv⟩ :=
        (str_lookup_map_eq_some_iff Column.Name (fun _ => "default comment missing")
          _ hnd1 n t).mp hmc
      obtain ⟨hc, hg⟩ := List.mem_filter.mp hcf
      rw [Bool.and_eq_true, decide_eq_true_eq] at hg
      refine ⟨c, hc, hcn, hg.2, ?_⟩
      rw [if_pos (hcn ▸ hg.1), htag, hcv]
    | none =>
      rw [str_lookup_append_of_none _ _ _ hmc] at h
      obtain ⟨c, hcf, hcn, hcv⟩ :=
        (str_lookup_map_eq_some_iff Column.Name (fun _ => "") _ hnd2 n tag).mp h
      obtain ⟨hc, hg⟩ := List.mem_filter.mp hcf
      rw [Bool.and_eq_true, Option.isNone_iff_eq_none] at hg
      have hundoc : undocumented c = true := by
        rw [← dv_value_eq_empty_iff]
        have := hg.2
        simpa using this
      refine ⟨c, hc, hcn, hundoc, ?_⟩
      have hnm : n ∉ mv := by
        intro hin
        have hcfil : c ∈ cols.filter (fun c => c.Name ∈ mv && undocumented c) :=
          List.mem_filter.mpr ⟨hc, by
            rw [Bool.and_eq_true, decide_eq_true_eq]
            exact ⟨hcn ▸ hin, hundoc⟩⟩
        have : str_lookup (build_missing_tagged cols mv) c.Name
            = some "default comment missing" := by
          rw [hmc1]
          exact (str_lookup_map_eq_some_iff Column.Name
            (fun _ => "default comment missing") _ hnd1 c.Name
            "default comment missing").mpr ⟨c, hcfil, rfl, rfl⟩
        have h1 := hg.1
        rw [hcn] at this h1
        rw [this] at h1
        exact Option.noConfusion h1
      rw [if_neg hnm, ← hcv]
  · rintro ⟨c, hc, hcn, hundoc, htag⟩
    rw [hreport]
    by_cases hmv : n ∈ mv
    · rw [if_pos hmv] at htag
      have hcfil : c ∈ cols.filter (fun c => c.Name ∈ mv && undocumented c) :=
        List.mem_filter.mpr ⟨hc, by
          rw [Bool.and_eq_true, decide_eq_true_eq]
          exact ⟨hcn ▸ hmv, hundoc⟩⟩
      have hsome : str_lookup (build_missing_tagged cols mv) n
          = some "default comment missing" := by
        rw [hmc1]
        exact (str_lookup_map_eq_some_iff Column.Name
          (fun _ => "default comment missing") _ hnd1 n
          "default comment missing").mpr ⟨c, hcfil, hcn, rfl⟩
      rw [str_lookup_append_of_some _ _ n _ hsome, htag]
    · rw [if_neg hmv] at htag
      have hnone : str_lookup (build_missing_tagged cols mv) n = none := by
        rw [hmc1]
        rw [str_lookup_map_eq_none_iff]
        intro a ha hEq
        obtain ⟨hacols, hag⟩ := List.mem_filter.mp ha
        rw [Bool.and_eq_true, decide_eq_true_eq] at hag
        exact hmv (hEq ▸ hag.1)
      rw [str_lookup_append_of_none _ _ _ hnone]
      have hcfil : c ∈ cols.filter (fun c =>
          (str_lookup (build_missing_tagged cols mv) c.Name).isNone
            && dv_value c == "") :=
        List.mem_filter.mpr ⟨hc, by
          rw [Bool.and_eq_true, Option.isNone_iff_eq_none]
          constructor
          · rw [hcn]
            exact hnone
          · have : dv_value c = "" := (dv_value_eq_empty_iff c).mpr hundoc
            simp [this]⟩
      rw [htag]
      exact (str_lookup_map_eq_some_iff Column.Name (fun _ => "") _ hnd2 n "").mpr
        ⟨c, hcfil, hcn, rfl⟩

section DumpLemmas

theorem dumpFields_str : ∀ d : List (String × String),
    dumpFields (d.map (fun p => (p.1, PyVal.vstr p.2)))
      = Except.ok (d.map (fun p => (p.1, JsonVal.jstr p.2))) := by
  intro d
  induction d with
  | nil => rfl
  | cons p rest ih => simp [dumpFields, dumpVal, ih]

theorem dump_str_dict (d : List (String × String)) :
    dumpVal (str_dict_pyval d)
      = Except.ok (.jobj (d.map (fun p => (p.1, JsonVal.jstr p.2)))) := by
  simp [str_dict_pyval, dumpVal, dumpFields_str d]

theorem dumpVal_obj_ok (fs : List (String × PyVal)) (js : List (String × JsonVal))
    (h : dumpFields fs = Except.ok js) : dumpVal (.vobj fs) = Except.ok (.jobj js) := by
  rw [show dumpVal (PyVal.vobj fs)
      = (match dumpFields fs with
         | Except.ok js => Except.ok (JsonVal.jobj js)
         | Except.error e => Except.error e) from rfl, h]

theorem dumpFields_cons_ok (k : String) (v : PyVal) (rest : List (String × PyVal))
    (j : JsonVal) (js : List (String × JsonVal))
    (hv : dumpVal v = Except.ok j) (hr : dumpFields rest = Except.ok js) :
    dumpFields ((k, v) :: rest) = Except.ok ((k, j) :: js) := by
  rw [show dumpFields ((k, v) :: rest)
      = (match dumpVal v with
         | Except.error e => Except.error e
         | Except.ok j =>
            match dumpFields rest with
            | Except.error e => Except.error e
            | Except.ok js => Except.ok ((k, j) :: js)) from rfl, hv, hr]

theorem write_body_fs_ok (tm : TableMetadata) (mv : List String) :
    write_body tm mv true
      = Except.ok (.jobj
          [("default_values",
            .jobj ((build_default_values (write_cols tm)).map
              (fun p => (p.1, JsonVal.jstr p.2)))),
           ("missing_columns",
            .jobj ((build_missing_report (write_cols tm) mv).map
              (fun p => (p.1, JsonVal.jstr p.2))))]) := by
  have h1 := dump_str_dict (build_default_values (write_cols tm))
  have h2 := dump_str_dict (build_missing_report (write_cols tm) mv)
  have hf := dumpFields_cons_ok "default_values" _ _ _ _ h1
    (dumpFields_cons_ok "missing_columns" _ [] _ [] h2 rfl)
  show dumpVal (snapshot_data tm mv) = _
  unfold snapshot_data
  exact dumpVal_obj_ok _ _ hf

end DumpLemmas

mutual

theorem dumpVal_spec : ∀ v : PyVal,
    (otherTypes v = [] → ∃ j, dumpVal v = Except.ok j) ∧
    (otherTypes v ≠ [] →
      ∃ t, t ∈ otherTypes v ∧ dumpVal v = Except.error (not_serializable_msg t))
  | .vnull => ⟨fun _ => ⟨.jnull, rfl⟩, fun h => absurd rfl h⟩
  | .vstr s => ⟨fun _ => ⟨.jstr s, rfl⟩, fun h => absurd rfl h⟩
  | .vdatetime iso => ⟨fun _ => ⟨.jstr iso, rfl⟩, fun h => absurd rfl h⟩
  | .vother t =>
      ⟨fun h => absurd h (by simp [otherTypes]),
       fun _ => ⟨t, by simp [otherTypes], rfl⟩⟩
  | .vlist items => by
      have hl := dumpList_spec items
      constructor
      · intro h
        obtain ⟨js, hjs⟩ := hl.1 h
        exact ⟨.jarr js, by simp [dumpVal, hjs]⟩
      · intro h
        obtain ⟨t, hmem, herr⟩ := hl.2 h
        exact ⟨t, hmem, by simp [dumpVal, herr]⟩
  | .vobj fields => by
      have hf := dumpFields_spec fields
      constructor
      · intro h
        obtain ⟨js, hjs⟩ := hf.1 h
        exact ⟨.jobj js, by simp [dumpVal, hjs]⟩
      · intro h
        obtain ⟨t, hmem, herr⟩ := hf.2 h
        exact ⟨t, hmem, by simp [dumpVal, herr]⟩

theorem dumpList_spec : ∀ l : List PyVal,
    (otherTypesList l = [] → ∃ js, dumpList l = Except.ok js) ∧
    (otherTypesList l ≠ [] →
      ∃ t, t ∈ otherTypesList l ∧ dumpList l = Except.error (not_serializable_msg t))
  | [] => ⟨fun _ => ⟨[], rfl⟩, fun h => absurd rfl h⟩
  | v :: rest => by
      have hv := dumpVal_spec v
      have hr := dumpList_spec rest
      constructor
      · intro h
        rw [show otherTypesList (v :: rest) = otherTypes v ++ otherTypesList rest from rfl,
          List.append_eq_nil] at h
        obtain ⟨j, hj⟩ := hv.1 h.1
        obtain ⟨js, hjs⟩ := hr.1 h.2
        exact ⟨j :: js, by simp [dumpList, hj, hjs]⟩
      · intro h
        by_cases hov : otherTypes v = []
        · have hor : otherTypesList rest ≠ [] := by
            intro h2
            apply h
            rw [show otherTypesList (v :: rest) = otherTypes v ++ otherTypesList rest from rfl,
              hov, h2]
            rfl
          obtain ⟨j, hj⟩ := hv.1 hov
          obtain ⟨t, hmem, herr⟩ := hr.2 hor
          refine ⟨t, ?_, by simp [dumpList, hj, herr]⟩
          rw [show otherTypesList (v :: rest) = otherTypes v ++ otherTypesList rest from rfl]
          exact List.mem_append_right _ hmem
        · obtain ⟨t, hmem, herr⟩ := hv.2 hov
          refine ⟨t, ?_, by simp [dumpList, herr]⟩
          rw [show otherTypesList (v :: rest) = otherTypes v ++ otherTypesList rest from rfl]
          exact List.mem_append_left _ hmem

theorem dumpFields_spec : ∀ fs : List (String × PyVal),
    (otherTypesFields fs = [] → ∃ js, dumpFields fs = Except.ok js) ∧
    (otherTypesFields fs ≠ [] →
      ∃ t, t ∈ otherTypesFields fs ∧ dumpFields fs = Except.error (not_serializable_msg t))
  | [] => ⟨fun _ => ⟨[], rfl⟩, fun h => absurd rfl h⟩
  | (k, v) :: rest => by
      have hv := dumpVal_spec v
      have hr := dumpFields_spec rest
      constructor
      · intro h
        rw [show otherTypesFields ((k, v) :: rest) = otherTypes v ++ otherTypesFields rest
            from rfl, List.append_eq_nil] at h
        obtain ⟨j, hj⟩ := hv.1 h.1
        obtain ⟨js, hjs⟩ := hr.1 h.2
        exact ⟨(k, j) :: js, by simp [dumpFields, hj, hjs]⟩
      · intro h
        by_cases hov : otherTypes v = []
        · have hor : otherTypesFields rest ≠ [] := by
            intro h2
            apply h
            rw [show otherTypesFields ((k, v) :: rest) = otherTypes v ++ otherTypesFields rest
              from rfl, hov, h2]
            rfl
          obtain ⟨j, hj⟩ := hv.1 hov
          obtain ⟨t, hmem, herr⟩ := hr.2 hor
          refine ⟨t, ?_, by simp [dumpFields, hj, herr]⟩
          rw [show otherTypesFields ((k, v) :: rest) = otherTypes v ++ otherTypesFields rest
            from rfl]
          exact List.mem_append_right _ hmem
        · obtain ⟨t, hmem, herr⟩ := hv.2 hov
          refine ⟨t, ?_, by simp [dumpFields, herr]⟩
          rw [show otherTypesFields ((k, v) :: rest) = otherTypes v ++ otherTypesFields rest
            from rfl]
          exact List.mem_append_left _ hmem

end

theorem dumpFields_mem_ok :
    ∀ (fs : List (String × PyVal)) (js : List (String × JsonVal)),
      dumpFields fs = Except.ok js →
      ∀ (n : String) (v : PyVal), (n, v) ∈ fs →
        ∃ j, dumpVal v = Except.ok j ∧ (n, j) ∈ js := by
  intro fs
  induction fs with
  | nil =>
    intro js _ n v hmem
    exact absurd hmem (List.not_mem_nil _)
  | cons p rest ih =>
    intro js hok n v hmem
    obtain ⟨k, w⟩ := p
    rw [show dumpFields ((k, w) :: rest)
        = (match dumpVal w with
           | .error e => .error e
           | .ok j =>
              match dumpFields rest with
              | .error e => .error e
              | .ok js => .ok ((k, j) :: js)) from rfl] at hok
    cases hdw : dumpVal w with
    | error e => rw [hdw] at hok; exact Except.noConfusion hok
    | ok j =>
      rw [hdw] at hok
      cases hdr : dumpFields rest with
      | error e => rw [hdr] at hok; exact Except.noConfusion hok
      | ok js2 =>
        rw [hdr] at hok
        have hjs : js = (k, j) :: js2 := (Except.ok.injEq _ _ ▸ hok).symm
        rcases List.mem_cons.mp hmem with hhead | htail
        · obtain ⟨hk, hw⟩ := Prod.mk.injEq _ _ _ _ ▸ hhead
          subst hk
          subst hw
          exact ⟨j, hdw, by rw [hjs]; exact List.mem_cons_self _ _⟩
        · obtain ⟨j2, hj2, hmem2⟩ := ih js2 hdr n v htail
          exact ⟨j2, hj2, by rw [hjs]; exact List.mem_cons_of_mem _ hmem2⟩

end ReportLemmas

end MergeLemmas

end BuildLemmas

section AddUpdateLemmas

theorem add_update_none_eq (table_name : String)
    (nvf : Except String (List (String × String))) :
    add_update_missing_values table_name nvf none
      = ⟨some "TypeError: NoneType object is not subscriptable", none, false, []⟩ := rfl

theorem add_update_no_sd_eq (table_name : String)
    (nvf : Except String (List (String × String))) (tm : TableMetadata)
    (h : tm.StorageDescriptor = none) :
    add_update_missing_values table_name nvf (some tm)
      = ⟨some "KeyError: StorageDescriptor", none, false, []⟩ := by
  cases tm with
  | mk fs sdo =>
    have h2 : sdo = none := h
    subst h2
    rfl

theorem add_update_some_sd (table_name : String)
    (nvf : Except String (List (String × String))) (tm : TableMetadata)
    (cols : List Column) (hsd : tm.StorageDescriptor = some (StorageDescriptor.mk cols)) :
    add_update_missing_values table_name nvf (some tm)
      = if (merge_missing_columns cols).isEmpty then
          ⟨none, some MergeReturn.emptyDict, false, []⟩
        else
          match nvf with
          | Except.error e => ⟨some e, none, true, []⟩
          | Except.ok nv =>
            ⟨none,
             some (MergeReturn.updated (TableMetadata.mk tm.fields
               (some (StorageDescriptor.mk
                 (merge_loop cols ((merge_missing_columns cols).map Prod.fst) nv))))),
             true,
             [table_input_val table_name
               (merge_loop cols ((merge_missing_columns cols).map Prod.fst) nv)]⟩ := by
  cases tm with
  | mk fs sdo =>
    have h2 : sdo = some (StorageDescriptor.mk cols) := hsd
    subst h2
    rfl

theorem add_update_some_sd_ok (table_name : String)
    (nv : List (String × String)) (tm : TableMetadata)
    (cols : List Column) (hsd : tm.StorageDescriptor = some (StorageDescriptor.mk cols)) :
    add_update_missing_values table_name (Except.ok nv) (some tm)
      = if (merge_missing_columns cols).isEmpty then
          ⟨none, some MergeReturn.emptyDict, false, []⟩
        else
          ⟨none,
           some (MergeReturn.updated (TableMetadata.mk tm.fields
             (some (StorageDescriptor.mk
               (merge_loop cols ((merge_missing_columns cols).map Prod.fst) nv))))),
           true,
           [table_input_val table_name
             (merge_loop cols ((merge_missing_columns cols).map Prod.fst) nv)]⟩ := by
  rw [add_update_some_sd table_name (Except.ok nv) tm cols hsd]

theorem add_update_some_sd_err (table_name : String) (e : String)
    (tm : TableMetadata) (cols : List Column)
    (hsd : tm.StorageDescriptor = some (StorageDescriptor.mk cols)) :
    add_update_missing_values table_name (Except.error e) (some tm)
      = if (merge_missing_columns cols).isEmpty then
          ⟨none, some MergeReturn.emptyDict, false, []⟩
        else ⟨some e, none, true, []⟩ := by
  rw [add_update_some_sd table_name (Except.error e) tm cols hsd]

theorem merge_one_name (new_values : List (String × String)) (c : Column) :
    (merge_one new_values c).Name = c.Name := by
  unfold merge_one
  by_cases hu : undocumented c = true
  · rw [if_pos hu]
  · rw [if_neg hu]

theorem merge_one_idem (new_values : List (String × String)) (c : Column) :
    merge_one new_values (merge_one new_values c) = merge_one new_values c := by
  by_cases hu : undocumented c = true
  · have h1 : merge_one new_values c
        = Column.mk c.Name (some ((str_lookup new_values c.Name).getD "")) := by
      unfold merge_one
      rw [if_pos hu]
    rw [h1]
    by_cases hu2 : undocumented
        (Column.mk c.Name (some ((str_lookup new_values c.Name).getD ""))) = true
    · unfold merge_one
      rw [if_pos hu2]
    · unfold merge_one
      rw [if_neg hu2]
  · have h1 : merge_one new_values c = c := by
      unfold merge_one
      rw [if_neg hu]
    rw [h1, h1]

theorem merged_columns_eq_map_merge_one (new_values : List (String × String))
    (cols : List Column) (hnd : (cols.map Column.Name).Nodup) :
    merge_loop cols ((merge_missing_columns cols).map Prod.fst) new_values
      = cols.map (merge_one new_values) := by
  rw [merged_columns_eq new_values cols hnd]
  exact List.map_congr_left (fun c _ => rfl)

theorem map_merge_one_names (new_values : List (String × String)) (cols : List Column) :
    (cols.map (merge_one new_values)).map Column.Name = cols.map Column.Name := by
  rw [List.map_map]
  exact List.map_congr_left (fun c _ => merge_one_name new_values c)

end AddUpdateLemmas

/-- C1: for every metadata document (with the data model's unique-column-
name invariant), the missing-columns report of
`write_metadata_and_missing_values`, computed against the top-level-null
key set of the document, contains a column name under the tag
`"default comment missing"` exactly when that column is undocumented and
its name is a top-level null field; every other undocumented column is in
the report with tag `""`; documented columns do not appear. -/
theorem claim_C1_report (tm : TableMetadata)
    (hnd : ((write_cols tm).map Column.Name).Nodup) (n tag : String) :
    str_lookup (build_missing_report (write_cols tm) (top_null_keys tm)) n = some tag ↔
      ∃ c ∈ write_cols tm, c.Name = n ∧ undocumented c = true ∧
        tag = (if n ∈ top_null_keys tm then "default comment missing" else "") :=
  build_missing_report_lookup_iff (write_cols tm) (top_null_keys tm) hnd n tag

theorem claim_C1_report_witness :
    str_lookup (build_missing_report (write_cols sample_tm) (top_null_keys sample_tm)) "ts"
      = some "default comment missing" :=
  (claim_C1_report sample_tm (by decide) "ts" "default comment missing").mpr
    ⟨Column.mk "ts" (some ""),
     List.mem_cons_of_mem _ (List.mem_cons_self _ _), rfl, by decide, by decide⟩

/-- C2: for every metadata document with a column sequence (under the
unique-name invariant) and readable override mapping, the merge rewrites
each undocumented column's comment to the override value when present and
to `""` otherwise, and leaves every documented column untouched
(`merge_one` is exactly that per-column case split). -/
theorem claim_C2_merge_overrides (table_name : String)
    (new_values : List (String × String)) (tm : TableMetadata) (cols : List Column)
    (hsd : tm.StorageDescriptor = some (StorageDescriptor.mk cols))
    (hnd : (cols.map Column.Name).Nodup) :
    (add_update_missing_values table_name (Except.ok new_values) (some tm)).raised = none ∧
    (merge_result_doc tm
        (add_update_missing_values table_name (Except.ok new_values) (some tm))).StorageDescriptor
      = some (StorageDescriptor.mk (cols.map (merge_one new_values))) := by
  have heq := add_update_some_sd table_name (Except.ok new_values) tm cols hsd
  by_cases hmiss : (merge_missing_columns cols).isEmpty = true
  · rw [heq, if_pos hmiss]
    have hall := (merge_missing_columns_eq_nil_iff cols).mp (List.isEmpty_iff.mp hmiss)
    have hmap : cols.map (merge_one new_values) = cols := by
      have h1 : cols.map (merge_one new_values) = cols.map id :=
        List.map_congr_left (fun c hc => by
          unfold merge_one
          rw [if_neg (by rw [hall c hc]; exact Bool.false_ne_true)]
          rfl)
      rw [h1, List.map_id]
    refine ⟨rfl, ?_⟩
    rw [show merge_result_doc tm
        (⟨none, some MergeReturn.emptyDict, false, []⟩ : MergeTrace) = tm from rfl,
      hsd, hmap]
  · rw [heq, if_neg hmiss]
    refine ⟨rfl, ?_⟩
    show some (StorageDescriptor.mk
      (merge_loop cols ((merge_missing_columns cols).map Prod.fst) new_values)) = _
    rw [merged_columns_eq_map_merge_one new_values cols hnd]

theorem claim_C2_merge_overrides_witness :
    (add_update_missing_values "tbl" (Except.ok [("ts", "event timestamp")])
        (some sample_tm)).raised = none ∧
    (merge_result_doc sample_tm
        (add_update_missing_values "tbl" (Except.ok [("ts", "event timestamp")])
          (some sample_tm))).StorageDescriptor
      = some (StorageDescriptor.mk
          ([Column.mk "id" (some "primary key"), Column.mk "ts" (some "")].map
            (merge_one [("ts", "event timestamp")]))) :=
  claim_C2_merge_overrides "tbl" [("ts", "event timestamp")] sample_tm
    [Column.mk "id" (some "primary key"), Column.mk "ts" (some "")] rfl (by decide)

/-- C3 counterexample: on a document whose only column is documented, the
merge call returns the empty dict `{}` (line 187), which is not the input
document — so "merge returns its input unchanged" fails as stated. -/
theorem claim_C3_counterexample :
    undocumented (Column.mk "id" (some "primary key")) = false ∧
    (add_update_missing_values "tbl" (Except.ok []) (some documented_tm)).ret
      = some MergeReturn.emptyDict ∧
    (add_update_missing_values "tbl" (Except.ok []) (some documented_tm)).ret
      ≠ some (MergeReturn.updated documented_tm) := by
  refine ⟨by decide, rfl, ?_⟩
  intro h
  have h2 : MergeReturn.emptyDict = MergeReturn.updated documented_tm :=
    Option.some_injective _ h
  exact MergeReturn.noConfusion h2

/-- C3 amended: for every metadata document in which no column is
undocumented, the merge leaves the (unmutated) input aside and returns the
empty dict `{}`, never opens the override file (its content or readability
is irrelevant), raises nothing, and never calls `update_table`. -/
theorem claim_C3_amended (table_name : String)
    (new_values_file : Except String (List (String × String)))
    (tm : TableMetadata) (cols : List Column)
    (hsd : tm.StorageDescriptor = some (StorageDescriptor.mk cols))
    (hall : ∀ c ∈ cols, undocumented c = false) :
    add_update_missing_values table_name new_values_file (some tm)
      = ⟨none, some MergeReturn.emptyDict, false, []⟩ := by
  rw [add_update_some_sd table_name new_values_file tm cols hsd,
    if_pos (List.isEmpty_iff.mpr ((merge_missing_columns_eq_nil_iff cols).mpr hall))]

theorem claim_C3_amended_witness :
    add_update_missing_values "tbl" (Except.error "file not found")
        (some documented_tm)
      = ⟨none, some MergeReturn.emptyDict, false, []⟩ :=
  claim_C3_amended "tbl" (Except.error "file not found") documented_tm
    [Column.mk "id" (some "primary key")] rfl (by decide)

/-- C4: `get_table_metadata` returns the `None` sentinel exactly when the
`get_table` call failed (whether with `EntityNotFoundException` or any
other exception), and the "before" snapshot write is attempted exactly
when the fetch succeeded, with the fetched document and its
top-level-null key list as arguments. -/
theorem claim_C4_fetch (r : GetTableResult) :
    ((get_table_metadata r).ret = none ↔
      r = GetTableResult.entityNotFound ∨ ∃ e, r = GetTableResult.otherError e) ∧
    ((get_table_metadata r).writeCalls = [] ↔
      r = GetTableResult.entityNotFound ∨ ∃ e, r = GetTableResult.otherError e) ∧
    (∀ tm : TableMetadata, r = GetTableResult.ok tm →
      (get_table_metadata r).writeCalls = [(tm, top_null_keys tm)]) := by
  cases r with
  | ok tm =>
    refine ⟨?_, ?_, ?_⟩
    · simp [get_table_metadata]
    · simp [get_table_metadata]
    · intro tm2 h
      obtain rfl : tm = tm2 := GetTableResult.ok.inj h
      rfl
  | entityNotFound =>
    refine ⟨?_, ?_, ?_⟩
    · simp [get_table_metadata]
    · simp [get_table_metadata]
    · intro tm2 h
      exact GetTableResult.noConfusion h
  | otherError e =>
    refine ⟨?_, ?_, ?_⟩
    · simp [get_table_metadata]
    · simp [get_table_metadata]
    · intro tm2 h
      exact GetTableResult.noConfusion h

theorem claim_C4_fetch_witness :
    ((get_table_metadata (GetTableResult.ok sample_tm)).writeCalls
      = [(sample_tm, top_null_keys sample_tm)]) ∧
    ((get_table_metadata GetTableResult.entityNotFound).ret = none) :=
  ⟨(claim_C4_fetch (GetTableResult.ok sample_tm)).2.2 sample_tm rfl,
   (claim_C4_fetch GetTableResult.entityNotFound).1.mpr (Or.inl rfl)⟩

/-- C5: during snapshot serialization every `datetime` value is rendered
as its ISO-8601 string (directly and as a field anywhere in a structure
that serializes), and any other non-primitive value makes serialization
fail with the `serialize_datetime` error whose message names the
offending value's type. -/
theorem claim_C5_serializer :
    (∀ iso : String, serialize_datetime (PyVal.vdatetime iso) = Except.ok iso ∧
      dumpVal (PyVal.vdatetime iso) = Except.ok (JsonVal.jstr iso)) ∧
    (∀ (fs : List (String × PyVal)) (n iso : String),
      otherTypesFields fs = [] → (n, PyVal.vdatetime iso) ∈ fs →
      ∃ js, dumpVal (PyVal.vobj fs) = Except.ok (JsonVal.jobj js) ∧
        (n, JsonVal.jstr iso) ∈ js) ∧
    (∀ v : PyVal, otherTypes v ≠ [] →
      ∃ t, t ∈ otherTypes v ∧ dumpVal v = Except.error (not_serializable_msg t)) := by
  refine ⟨fun iso => ⟨rfl, rfl⟩, ?_, fun v h => (dumpVal_spec v).2 h⟩
  intro fs n iso hother hmem
  obtain ⟨js, hjs⟩ := (dumpFields_spec fs).1 hother
  obtain ⟨j, hj, hjmem⟩ := dumpFields_mem_ok fs js hjs n (PyVal.vdatetime iso) hmem
  have hj2 : Except.ok (JsonVal.jstr iso) = Except.ok j := hj
  have hj3 : JsonVal.jstr iso = j := by injection hj2
  exact ⟨js, dumpVal_obj_ok fs js hjs, by rw [hj3]; exact hjmem⟩

theorem claim_C5_serializer_witness :
    (∃ js, dumpVal (PyVal.vobj [("ts", PyVal.vdatetime "2024-01-01T00:00:00")])
        = Except.ok (JsonVal.jobj js) ∧
        ("ts", JsonVal.jstr "2024-01-01T00:00:00") ∈ js) ∧
    (∃ t, t ∈ otherTypes (PyVal.vother "decimal.Decimal") ∧
      dumpVal (PyVal.vother "decimal.Decimal")
        = Except.error (not_serializable_msg t)) :=
  ⟨claim_C5_serializer.2.1 [("ts", PyVal.vdatetime "2024-01-01T00:00:00")] "ts"
      "2024-01-01T00:00:00" rfl (List.mem_cons_self _ _),
   claim_C5_serializer.2.2 (PyVal.vother "decimal.Decimal") (by decide)⟩

/-- C6: the snapshot write never propagates an exception: for every input
(including file-system failure, `fsOk = false`), either the body succeeds
and the file content is recorded, or the body's exception is caught and
turned into a printed warning — in both cases the function returns
normally with `raised = none`. -/
theorem claim_C6_write_nonfatal (tm : TableMetadata) (mv : List String) (fsOk : Bool) :
    (write_metadata_and_missing_values tm mv fsOk).raised = none ∧
    ((∃ e, write_body tm mv fsOk = Except.error e ∧
        write_metadata_and_missing_values tm mv fsOk
          = ⟨none, none, some ("Error during metadata writing: " ++ e)⟩) ∨
     (∃ j, write_body tm mv fsOk = Except.ok j ∧
        write_metadata_and_missing_values tm mv fsOk = ⟨none, some j, none⟩)) := by
  unfold write_metadata_and_missing_values
  cases hb : write_body tm mv fsOk with
  | ok j => exact ⟨rfl, Or.inr ⟨j, rfl, rfl⟩⟩
  | error e => exact ⟨rfl, Or.inl ⟨e, rfl, rfl⟩⟩

/-- C7: every snapshot document the writer produces has exactly the two
top-level keys `default_values` and `missing_columns`, and
`default_values` maps exactly the column names of the document, each to
its current comment and to `""` when the comment is absent or
whitespace-only (which is `dv_value`). -/
theorem claim_C7_snapshot_shape (tm : TableMetadata) (mv : List String)
    (hnd : ((write_cols tm).map Column.Name).Nodup) :
    ∃ dvj mcj,
      (write_metadata_and_missing_values tm mv true).written
        = some (JsonVal.jobj
            [("default_values", JsonVal.jobj dvj),
             ("missing_columns", JsonVal.jobj mcj)]) ∧
      (∀ c ∈ write_cols tm, str_lookup dvj c.Name = some (JsonVal.jstr (dv_value c))) ∧
      (∀ (n : String) (j : JsonVal), str_lookup dvj n = some j →
        ∃ c ∈ write_cols tm, c.Name = n ∧ j = JsonVal.jstr (dv_value c)) := by
  refine ⟨(build_default_values (write_cols tm)).map (fun p => (p.1, JsonVal.jstr p.2)),
    (build_missing_report (write_cols tm) mv).map (fun p => (p.1, JsonVal.jstr p.2)),
    ?_, ?_, ?_⟩
  · unfold write_metadata_and_missing_values
    rw [write_body_fs_ok tm mv]
  · intro c hc
    rw [str_lookup_map_value]
    have hdv : str_lookup (build_default_values (write_cols tm)) c.Name
        = some (dv_value c) := by
      rw [build_default_values_eq _ hnd]
      exact (str_lookup_map_eq_some_iff Column.Name dv_value _ hnd c.Name
        (dv_value c)).mpr ⟨c, hc, rfl, rfl⟩
    rw [hdv]
    rfl
  · intro n j h
    rw [str_lookup_map_value] at h
    cases hv : str_lookup (build_default_values (write_cols tm)) n with
    | none => rw [hv] at h; exact Option.noConfusion h
    | some v =>
      rw [hv] at h
      have hj : JsonVal.jstr v = j := Option.some_injective _ h
      rw [build_default_values_eq _ hnd] at hv
      obtain ⟨c, hc, hcn, hcv⟩ :=
        (str_lookup_map_eq_some_iff Column.Name dv_value _ hnd n v).mp hv
      exact ⟨c, hc, hcn, by rw [← hj, hcv]⟩

theorem claim_C7_snapshot_shape_witness :
    ∃ dvj mcj,
      (write_metadata_and_missing_values sample_tm (top_null_keys sample_tm) true).written
        = some (JsonVal.jobj
            [("default_values", JsonVal.jobj dvj),
             ("missing_columns", JsonVal.jobj mcj)]) ∧
      (∀ c ∈ write_cols sample_tm,
        str_lookup dvj c.Name = some (JsonVal.jstr (dv_value c))) ∧
      (∀ (n : String) (j : JsonVal), str_lookup dvj n = some j →
        ∃ c ∈ write_cols sample_tm, c.Name = n ∧ j = JsonVal.jstr (dv_value c)) :=
  claim_C7_snapshot_shape sample_tm (top_null_keys sample_tm) (by decide)

/-- C8: the merge is idempotent on the metadata document: merging the same
override mapping a second time leaves the document (its column comments)
exactly as after the first merge. -/
theorem claim_C8_merge_idempotent (table_name : String)
    (new_values : List (String × String)) (tm : TableMetadata) (cols : List Column)
    (hsd : tm.StorageDescriptor = some (StorageDescriptor.mk cols))
    (hnd : (cols.map Column.Name).Nodup) :
    merge_result_doc
        (merge_result_doc tm
          (add_update_missing_values table_name (Except.ok new_values) (some tm)))
        (add_update_missing_values table_name (Except.ok new_values)
          (some (merge_result_doc tm
            (add_update_missing_values table_name (Except.ok new_values) (some tm)))))
      = merge_result_doc tm
          (add_update_missing_values table_name (Except.ok new_values) (some tm)) := by
  have heq := add_update_some_sd_ok table_name new_values tm cols hsd
  by_cases hmiss : (merge_missing_columns cols).isEmpty = true
  · have hdoc : merge_result_doc tm
        (add_update_missing_values table_name (Except.ok new_values) (some tm)) = tm := by
      rw [heq, if_pos hmiss]
      rfl
    rw [hdoc, heq, if_pos hmiss]
    rfl
  · have hdoc1 : merge_result_doc tm
        (add_update_missing_values table_name (Except.ok new_values) (some tm))
        = TableMetadata.mk tm.fields
            (some (StorageDescriptor.mk (cols.map (merge_one new_values)))) := by
      rw [heq, if_neg hmiss]
      show TableMetadata.mk tm.fields
          (some (StorageDescriptor.mk
            (merge_loop cols ((merge_missing_columns cols).map Prod.fst) new_values))) = _
      rw [merged_columns_eq_map_merge_one new_values cols hnd]
    rw [hdoc1]
    have hnd2 : ((cols.map (merge_one new_values)).map Column.Name).Nodup := by
      rw [map_merge_one_names]
      exact hnd
    have heq2 := add_update_some_sd_ok table_name new_values
      (TableMetadata.mk tm.fields
        (some (StorageDescriptor.mk (cols.map (merge_one new_values)))))
      (cols.map (merge_one new_values)) rfl
    by_cases hmiss2 : (merge_missing_columns (cols.map (merge_one new_values))).isEmpty = true
    · rw [heq2, if_pos hmiss2]
      rfl
    · rw [heq2, if_neg hmiss2,
        merged_columns_eq_map_merge_one new_values (cols.map (merge_one new_values)) hnd2]
      have hidem : (cols.map (merge_one new_values)).map (merge_one new_values)
          = cols.map (merge_one new_values) := by
        rw [List.map_map]
        exact List.map_congr_left (fun c _ => merge_one_idem new_values c)
      rw [hidem]
      rfl

theorem claim_C8_merge_idempotent_witness :
    merge_result_doc
        (merge_result_doc sample_tm
          (add_update_missing_values "tbl" (Except.ok [("ts", "event timestamp")])
            (some sample_tm)))
        (add_update_missing_values "tbl" (Except.ok [("ts", "event timestamp")])
          (some (merge_result_doc sample_tm
            (add_update_missing_values "tbl" (Except.ok [("ts", "event timestamp")])
              (some sample_tm)))))
      = merge_result_doc sample_tm
          (add_update_missing_values "tbl" (Except.ok [("ts", "event timestamp")])
            (some sample_tm)) :=
  claim_C8_merge_idempotent "tbl" [("ts", "event timestamp")] sample_tm
    [Column.mk "id" (some "primary key"), Column.mk "ts" (some "")] rfl (by decide)

/-- C9: every `TableInput` dict passed to `update_table` carries exactly
the keys `Name` and `StorageDescriptor`, the latter containing only the
`Columns` entry, holding the full merged column sequence of the updated
document — no other field of the catalog entry is part of the update. -/
theorem claim_C9_update_payload (table_name : String)
    (nvf : Except String (List (String × String))) (metadata : Option TableMetadata)
    (ti : List (String × PyVal))
    (h : ti ∈ (add_update_missing_values table_name nvf metadata).updateCalls) :
    ∃ (tm2 : TableMetadata) (cols2 : List Column),
      (add_update_missing_values table_name nvf metadata).ret
        = some (MergeReturn.updated tm2) ∧
      tm2.StorageDescriptor = some (StorageDescriptor.mk cols2) ∧
      ti = table_input_val table_name cols2 ∧
      ti.map Prod.fst = ["Name", "StorageDescriptor"] ∧
      str_lookup ti "StorageDescriptor"
        = some (PyVal.vobj [("Columns", columns_pyval cols2)]) := by
  cases metadata with
  | none =>
    rw [add_update_none_eq] at h
    simp at h
  | some tm =>
    cases hsd : tm.StorageDescriptor with
    | none =>
      rw [add_update_no_sd_eq table_name nvf tm hsd] at h
      simp at h
    | some sd =>
      obtain ⟨cols⟩ := sd
      have heq := add_update_some_sd table_name nvf tm cols hsd
      rw [heq] at h ⊢
      by_cases hmiss : (merge_missing_columns cols).isEmpty = true
      · rw [if_pos hmiss] at h
        simp at h
      · rw [if_neg hmiss] at h ⊢
        cases nvf with
        | error e => simp at h
        | ok nv =>
          simp only [List.mem_singleton] at h
          subst h
          exact ⟨_, _, rfl, rfl, rfl, rfl, rfl⟩

theorem claim_C9_update_payload_witness :
    ∃ (tm2 : TableMetadata) (cols2 : List Column),
      (add_update_missing_values "tbl" (Except.ok [("ts", "event timestamp")])
          (some sample_tm)).ret = some (MergeReturn.updated tm2) ∧
      tm2.StorageDescriptor = some (StorageDescriptor.mk cols2) ∧
      table_input_val "tbl"
          (merge_loop [Column.mk "id" (some "primary key"), Column.mk "ts" (some "")]
            ["ts"] [("ts", "event timestamp")])
        = table_input_val "tbl" cols2 ∧
      (table_input_val "tbl"
          (merge_loop [Column.mk "id" (some "primary key"), Column.mk "ts" (some "")]
            ["ts"] [("ts", "event timestamp")])).map Prod.fst
        = ["Name", "StorageDescriptor"] ∧
      str_lookup (table_input_val "tbl"
          (merge_loop [Column.mk "id" (some "primary key"), Column.mk "ts" (some "")]
            ["ts"] [("ts", "event timestamp")])) "StorageDescriptor"
        = some (PyVal.vobj [("Columns", columns_pyval cols2)]) :=
  claim_C9_update_payload "tbl" (Except.ok [("ts", "event timestamp")]) (some sample_tm)
    (table_input_val "tbl"
      (merge_loop [Column.mk "id" (some "primary key"), Column.mk "ts" (some "")]
        ["ts"] [("ts", "event timestamp")]))
    (List.Mem.head _)

/-- C10: the merge requires a document with a `StorageDescriptor`: on the
`None` sentinel it raises a `TypeError` and on a document without the key
a `KeyError`, in both cases before the override file is opened and with
no `update_table` call; hence a failed fetch (whose result is the `None`
sentinel) can never lead to an update being submitted. -/
theorem claim_C10_merge_guard (table_name : String)
    (nvf : Except String (List (String × String))) :
    (add_update_missing_values table_name nvf none
      = ⟨some "TypeError: NoneType object is not subscriptable", none, false, []⟩) ∧
    (∀ tm : TableMetadata, tm.StorageDescriptor = none →
      add_update_missing_values table_name nvf (some tm)
        = ⟨some "KeyError: StorageDescriptor", none, false, []⟩) ∧
    (∀ r : GetTableResult, (get_table_metadata r).ret = none →
      (add_update_missing_values table_name nvf ((get_table_metadata r).ret)).raised.isSome
          = true ∧
      (add_update_missing_values table_name nvf
          ((get_table_metadata r).ret)).openedOverrides = false ∧
      (add_update_missing_values table_name nvf
          ((get_table_metadata r).ret)).updateCalls = []) := by
  refine ⟨add_update_none_eq table_name nvf, ?_, ?_⟩
  · intro tm h
    exact add_update_no_sd_eq table_name nvf tm h
  · intro r h
    rw [h]
    exact ⟨rfl, rfl, rfl⟩

theorem claim_C10_merge_guard_witness :
    (add_update_missing_values "tbl" (Except.ok []) (some no_sd_tm)
      = ⟨some "KeyError: StorageDescriptor", none, false, []⟩) ∧
    ((add_update_missing_values "tbl" (Except.ok [])
        ((get_table_metadata GetTableResult.entityNotFound).ret)).updateCalls = []) :=
  ⟨(claim_C10_merge_guard "tbl" (Except.ok [])).2.1 no_sd_tm rfl,
   ((claim_C10_merge_guard "tbl" (Except.ok [])).2.2 GetTableResult.entityNotFound rfl).2.2⟩

end GlueMetadataCrawler
